import Mathlib

/-!
Shallow embedding of the PhotoWatermark2 core:
`src/core/watermark.py`, `src/core/io_ops.py`, and the export /
coordinate-mapping / preset logic of `src/ui/main_window.py`.

Images are modelled as a size together with a total pixel function.
Pixel channels are exact rationals in `[0, 255]`; Python's `int(...)`
truncation toward zero is `pyInt`.  External rasterisation (font glyph
coverage, Pillow's resampling filter and rotation) is abstracted as
explicit function parameters; all arithmetic that the repository itself
performs is embedded exactly.
-/

/-- Python `int(q)` on a float: truncation toward zero. -/
def pyInt (q : ℚ) : ℤ :=
  if 0 ≤ q then ⌊q⌋ else -⌊-q⌋

/-- Python `r % 360` on a nonneg-divisor float modulus. -/
def qmod360 (r : ℚ) : ℚ := r - 360 * ⌊r / 360⌋

/-- One RGBA pixel, straight (non-premultiplied) alpha, channels in `[0,255]`. -/
structure Pixel where
  r : ℚ
  g : ℚ
  b : ℚ
  a : ℚ
deriving DecidableEq

/-- An RGBA raster: dimensions plus a total pixel function. -/
structure Img where
  w : ℕ
  h : ℕ
  pix : ℕ → ℕ → Pixel

/-- Per-pixel model of Pillow's `Image.alpha_composite(dst, src)`:
standard source-over with straight alpha; a fully transparent source
leaves the destination pixel unchanged. -/
def alphaOver (dst src : Pixel) : Pixel :=
  let sa : ℚ := src.a / 255
  let da : ℚ := dst.a / 255
  let oa : ℚ := sa + da * (1 - sa)
  if oa = 0 then dst
  else
    { r := (src.r * sa + dst.r * da * (1 - sa)) / oa
      g := (src.g * sa + dst.g * da * (1 - sa)) / oa
      b := (src.b * sa + dst.b * da * (1 - sa)) / oa
      a := 255 * oa }

/-- `Image.alpha_composite(dst, srcLayer)` over a whole raster. -/
def alphaCompositeImg (dst src : Img) : Img :=
  { w := dst.w, h := dst.h, pix := fun x y => alphaOver (dst.pix x y) (src.pix x y) }

/-- `watermark.py` line 43: `alpha = int(255 * max(0.0, min(1.0, opacity)))`. -/
def textFillAlpha (opacity : ℚ) : ℤ :=
  pyInt (255 * max 0 (min 1 opacity))

/-- The transparent text layer drawn by `ImageDraw.draw.text` in
`apply_text_watermark`: the glyph fill region is painted in `color`
with the computed `alpha`; when `stroke_width > 0` the stroke region is
painted in `stroke_fill` (an RGB triple, hence fully opaque); the fill
is drawn on top of the stroke.  `fillRegion` / `strokeRegion` abstract
the font rasteriser. -/
def textLayer (size : ℕ × ℕ) (fillRegion strokeRegion : ℕ → ℕ → Bool)
    (color : ℚ × ℚ × ℚ) (opacity : ℚ) (strokeWidth : ℕ)
    (strokeFill : ℚ × ℚ × ℚ) : Img :=
  { w := size.1, h := size.2
    pix := fun x y =>
      if fillRegion x y then
        ⟨color.1, color.2.1, color.2.2, (textFillAlpha opacity : ℚ)⟩
      else if strokeWidth ≠ 0 ∧ strokeRegion x y = true then
        ⟨strokeFill.1, strokeFill.2.1, strokeFill.2.2, 255⟩
      else ⟨255, 255, 255, 0⟩ }

/-- `apply_text_watermark` (`watermark.py` lines 9-55): convert the base
to RGBA, draw the text layer, rotate it when `rotation % 360 != 0`
(rotation rasterisation is external, passed as `rotateFn`), then
alpha-composite the layer over the base. -/
def applyTextWatermark (base : Img) (fillRegion strokeRegion : ℕ → ℕ → Bool)
    (color : ℚ × ℚ × ℚ) (opacity : ℚ) (rotation : ℚ) (strokeWidth : ℕ)
    (strokeFill : ℚ × ℚ × ℚ) (rotateFn : Img → ℚ → Img) : Img :=
  let layer := textLayer (base.w, base.h) fillRegion strokeRegion color opacity
      strokeWidth strokeFill
  let layer2 := if rotation ≠ 0 ∧ qmod360 rotation ≠ 0 then rotateFn layer rotation else layer
  alphaCompositeImg base layer2

/-- `watermark.py` line 70: `new_size = (int(mark.width * scale), int(mark.height * scale))`. -/
def pilResizeDims (mw mh : ℕ) (scale : ℚ) : ℕ × ℕ :=
  ((pyInt ((mw : ℚ) * scale)).toNat, (pyInt ((mh : ℚ) * scale)).toNat)

/-- The `if scale != 1.0: mark = mark.resize(new_size, Image.ANTIALIAS)`
step of `apply_image_watermark`; the resampling filter itself is
external and passed as `resampleFn`. -/
def applyMarkScaled (mark : Img) (scale : ℚ) (resampleFn : Img → ℕ → ℕ → ℕ → ℕ → Pixel) : Img :=
  if scale ≠ 1 then
    let ns := pilResizeDims mark.w mark.h scale
    { w := ns.1, h := ns.2, pix := resampleFn mark ns.1 ns.2 }
  else mark

/-- `ImageEnhance.Brightness(alpha).enhance(opacity)` followed by
`putalpha`: the alpha channel is multiplied by `opacity`. -/
def enhanceAlpha (p : Pixel) (opacity : ℚ) : Pixel :=
  { p with a := p.a * opacity }

/-- `layer.paste(mark, position, mark)`: Pillow blends every channel of
the pasted region through the mask (here the mark's own alpha band);
pixels outside the mark's rectangle are untouched. -/
def pasteWithMask (layer mark : Img) (pos : ℤ × ℤ) : Img :=
  { w := layer.w, h := layer.h
    pix := fun x y =>
      let mx : ℤ := (x : ℤ) - pos.1
      let my : ℤ := (y : ℤ) - pos.2
      if 0 ≤ mx ∧ mx < (mark.w : ℤ) ∧ 0 ≤ my ∧ my < (mark.h : ℤ) then
        let mp := mark.pix mx.toNat my.toNat
        let lp := layer.pix x y
        let m : ℚ := mp.a / 255
        ⟨mp.r * m + lp.r * (1 - m), mp.g * m + lp.g * (1 - m),
         mp.b * m + lp.b * (1 - m), mp.a * m + lp.a * (1 - m)⟩
      else layer.pix x y }

/-- A fully transparent white layer, `Image.new('RGBA', size, (255,255,255,0))`. -/
def transparentLayer (w h : ℕ) : Img :=
  { w := w, h := h, pix := fun _ _ => ⟨255, 255, 255, 0⟩ }

/-- `apply_image_watermark` (`watermark.py` lines 57-86): scale the mark
when `scale != 1.0`, rotate it when `rotation % 360 != 0` (external,
`rotateFn`), multiply its alpha by `opacity` when `opacity < 1.0`,
paste it onto a transparent layer at `position` using the mark as its
own mask, and alpha-composite the layer over the base. -/
def applyImageWatermark (base mark : Img) (pos : ℤ × ℤ) (scale opacity rotation : ℚ)
    (resampleFn : Img → ℕ → ℕ → ℕ → ℕ → Pixel) (rotateFn : Img → ℚ → Img) : Img :=
  let mark1 := applyMarkScaled mark scale resampleFn
  let mark2 := if rotation ≠ 0 ∧ qmod360 rotation ≠ 0 then rotateFn mark1 rotation else mark1
  let mark3 :=
    if opacity < 1 then
      { w := mark2.w, h := mark2.h, pix := fun x y => enhanceAlpha (mark2.pix x y) opacity }
    else mark2
  let layer := pasteWithMask (transparentLayer base.w base.h) mark3 pos
  alphaCompositeImg base layer

/-! ### `src/core/io_ops.py` : `save_image` -/

/-- The Pillow color modes that `save_image` distinguishes. -/
inductive PilMode
  | RGB
  | RGBA
  | LA
  | L
deriving DecidableEq

/-- A Pillow image as seen by `save_image`: a mode, dimensions and pixels
(`r` doubles as the luminance band for `L`/`LA`). -/
structure PilImage where
  mode : PilMode
  w : ℕ
  h : ℕ
  pix : ℕ → ℕ → Pixel

/-- Number of bands `img.split()` yields for each mode. -/
def numBands : PilMode → ℕ
  | .RGB => 3
  | .RGBA => 4
  | .LA => 2
  | .L => 1

/-- The content of band `i` for an in-range index. -/
def bandFn (img : PilImage) (i : ℕ) : ℕ → ℕ → ℚ := fun x y =>
  let p := img.pix x y
  match img.mode, i with
  | .RGBA, 0 => p.r
  | .RGBA, 1 => p.g
  | .RGBA, 2 => p.b
  | .RGBA, 3 => p.a
  | .LA, 0 => p.r
  | .LA, 1 => p.a
  | .RGB, 0 => p.r
  | .RGB, 1 => p.g
  | .RGB, 2 => p.b
  | .L, 0 => p.r
  | _, _ => 0

/-- `img.split()[i]`: indexing the band tuple raises `IndexError` when
`i` is out of range for the image's mode. -/
def splitBand (img : PilImage) (i : ℕ) : Except String (ℕ → ℕ → ℚ) :=
  if i < numBands img.mode then Except.ok (bandFn img i)
  else Except.error "tuple index out of range"

/-- Python's `str.lower()` (character-wise lowercase). -/
def pyLower (s : String) : String := ⟨s.data.map Char.toLower⟩

/-- The file produced by a successful `save_image`. -/
structure SavedFile where
  mode : PilMode
  w : ℕ
  h : ℕ
  pix : ℕ → ℕ → Pixel
  quality : Option ℕ

/-- `img.convert('RGB')` for the non-alpha branch of `save_image`. -/
def convertRGB (img : PilImage) : PilImage :=
  { img with mode := .RGB, pix := fun x y => { img.pix x y with a := 255 } }

/-- `save_image` (`io_ops.py` lines 11-26): for JPEG, clamp quality to
`[1,100]`; when the mode is `RGBA` or `LA`, paste the image over a
white RGB background through `img.split()[3]` as mask (flattening the
alpha); otherwise `convert('RGB')`.  Non-JPEG formats save as-is. -/
def saveImage (img : PilImage) (fmt : String) (quality : ℕ) : Except String SavedFile :=
  if pyLower fmt = "jpg" ∨ pyLower fmt = "jpeg" then
    let q := max 1 (min 100 quality)
    if img.mode = .RGBA ∨ img.mode = .LA then
      match splitBand img 3 with
      | Except.error e => Except.error e
      | Except.ok mask =>
        Except.ok
          { mode := .RGB, w := img.w, h := img.h
            pix := fun x y =>
              let m : ℚ := mask x y / 255
              let p := img.pix x y
              ⟨p.r * m + 255 * (1 - m), p.g * m + 255 * (1 - m),
               p.b * m + 255 * (1 - m), 255⟩
            quality := some q }
    else
      let c := convertRGB img
      Except.ok { mode := c.mode, w := c.w, h := c.h, pix := c.pix, quality := some q }
  else
    Except.ok { mode := img.mode, w := img.w, h := img.h, pix := img.pix, quality := none }

/-! ### `src/ui/main_window.py` : coordinate mapper -/

/-- `MainWindow.image_to_label` (lines 862-870): scale an image pixel
position into preview-label coordinates, `int()`-truncating; the scale
factor falls back to `1.0` when the image dimension is `0`. -/
def imageToLabel (w h lw lh : ℕ) (ix iy : ℤ) : ℤ × ℤ :=
  let sx : ℚ := if w ≠ 0 then (lw : ℚ) / w else 1
  let sy : ℚ := if h ≠ 0 then (lh : ℚ) / h else 1
  (pyInt ((ix : ℚ) * sx), pyInt ((iy : ℚ) * sy))

/-- `MainWindow.label_to_image` (lines 872-880): scale a preview-label
position back into image pixels, `int()`-truncating; the scale factor
falls back to `1.0` when the label dimension is `0`. -/
def labelToImage (w h lw lh : ℕ) (px py : ℤ) : ℤ × ℤ :=
  let sx : ℚ := if lw ≠ 0 then (w : ℚ) / lw else 1
  let sy : ℚ := if lh ≠ 0 then (h : ℚ) / lh else 1
  (pyInt ((px : ℚ) * sx), pyInt ((py : ℚ) * sy))

/-! ### `src/ui/main_window.py` : position preset resolver -/

/-- `MainWindow._build_scaled_logo_pil` dimensions (lines 635-643):
`max(1, int(dim * scale))` in each axis with `scale = slider / 100`. -/
def buildScaledLogoDims (dims : ℕ × ℕ) (scaleSlider : ℕ) : ℕ × ℕ :=
  let scale : ℚ := (scaleSlider : ℚ) / 100
  (max 1 (pyInt ((dims.1 : ℚ) * scale)).toNat,
   max 1 (pyInt ((dims.2 : ℚ) * scale)).toNat)

/-- The alignment arithmetic of `MainWindow.on_pos_preset_clicked`
(lines 690-703): `coords ∈ {-1,0,1}²` select the grid cell; the target
is the top-left image-pixel position of the watermark box `(mw, mh)`. -/
def presetTarget (coords : ℤ × ℤ) (w h mw mh : ℕ) : ℤ × ℤ :=
  let tx : ℤ :=
    if coords.1 = -1 then 0
    else if coords.1 = 0 then Int.ediv ((w : ℤ) - (mw : ℤ)) 2
    else (w : ℤ) - (mw : ℤ)
  let ty : ℤ :=
    if coords.2 = -1 then 0
    else if coords.2 = 0 then Int.ediv ((h : ℤ) - (mh : ℤ)) 2
    else (h : ℤ) - (mh : ℤ)
  (tx, ty)

/-- The position a preset click actually feeds to the export pipeline:
`on_pos_preset_clicked` maps the target through `image_to_label` into
the overlay's draw position (line 706-707), and
`_gather_current_settings` later maps the overlay position back through
`label_to_image` (lines 625-631). -/
def presetExportPos (coords : ℤ × ℤ) (w h mw mh lw lh : ℕ) : ℤ × ℤ :=
  let t := presetTarget coords w h mw mh
  let lp := imageToLabel w h lw lh t.1 t.2
  labelToImage w h lw lh lp.1 lp.2

/-! ### `src/ui/main_window.py` : settings snapshot and `export_all` -/

/-- The UI widget values `_gather_current_settings` reads. -/
structure Settings where
  text : String
  fontSize : ℕ
  opacitySlider : ℕ
  strokeSpin : ℕ
  rotationText : ℕ
  logoScaleSlider : ℕ
  logoOpacitySlider : ℕ
  logoRotation : ℕ
  logoDims : Option (ℕ × ℕ)
  jpegQualitySlider : ℕ
deriving DecidableEq

/-- The `ctx` dict built by `_gather_current_settings` (lines 601-622);
`markImgDims` records the dimensions of the pre-scaled `mark_img`. -/
structure Ctx where
  useTextMark : Bool
  text : String
  fontSize : ℕ
  opacity : ℚ
  strokeWidth : ℕ
  textPos : ℤ × ℤ
  anchor : String
  textRotation : ℚ
  useImageMark : Bool
  markImgDims : Option (ℕ × ℕ)
  markScale : ℚ
  markOpacity : ℚ
  markRotation : ℚ
  markPos : ℤ × ℤ
  jpegQuality : ℕ
deriving DecidableEq

/-- `MainWindow._gather_current_settings` (lines 578-633): default text
position `(w-20, h-20)` and logo position `(w-sw-20, h-sh-20)` against
the *currently selected* image's size; `mark_img` is the pre-scaled
logo and `mark_scale` the same scale factor again; when the overlay has
been moved, its draw position is mapped back with `label_to_image` and
overrides the text and/or logo position. -/
def gatherCurrentSettings (s : Settings) (currentPil : Option (ℕ × ℕ))
    (overlayDrawPos : Option (ℤ × ℤ)) (lw lh : ℕ) : Ctx :=
  let useText : Bool := s.text ≠ ""
  let useImage : Bool := s.logoDims.isSome
  let texPos : ℤ × ℤ :=
    match currentPil with
    | some wh => ((wh.1 : ℤ) - 20, (wh.2 : ℤ) - 20)
    | none => (0, 0)
  let markPos0 : ℤ × ℤ :=
    match currentPil, s.logoDims with
    | some wh, some d =>
        let sd := buildScaledLogoDims d s.logoScaleSlider
        ((wh.1 : ℤ) - (sd.1 : ℤ) - 20, (wh.2 : ℤ) - (sd.2 : ℤ) - 20)
    | _, _ => (0, 0)
  let base : Ctx :=
    { useTextMark := useText
      text := s.text
      fontSize := s.fontSize
      opacity := (s.opacitySlider : ℚ) / 100
      strokeWidth := s.strokeSpin
      textPos := texPos
      anchor := "rd"
      textRotation := (s.rotationText : ℚ)
      useImageMark := useImage
      markImgDims := s.logoDims.map (fun d => buildScaledLogoDims d s.logoScaleSlider)
      markScale := (s.logoScaleSlider : ℚ) / 100
      markOpacity := (s.logoOpacitySlider : ℚ) / 100
      markRotation := (s.logoRotation : ℚ)
      markPos := markPos0
      jpegQuality := s.jpegQualitySlider }
  match overlayDrawPos with
  | some dp =>
      let p : ℤ × ℤ :=
        match currentPil with
        | some wh => labelToImage wh.1 wh.2 lw lh dp.1 dp.2
        | none => (0, 0)
      { base with
        markPos := if useImage then p else base.markPos
        textPos := if useText then p else base.textPos }
  | none => base

/-- `naming_combo` choices: 保留原名 / 添加前缀 / 添加后缀. -/
inductive NamingRule
  | keepOriginal
  | addPre
  | addSuf
deriving DecidableEq

/-- A source file path: parent directory (as an identifier), stem and
extension. -/
structure SrcPath where
  parent : ℕ
  stem : String
  ext : String
deriving DecidableEq

/-- `p.name = p.stem + p.suffix`. -/
def srcName (p : SrcPath) : String := p.stem ++ p.ext

/-- The destination file name computed in `export_all` (lines 828-834). -/
def outputName (rule : NamingRule) (preText sufText : String) (p : SrcPath) : String :=
  match rule with
  | .keepOriginal => srcName p
  | .addPre => preText ++ srcName p
  | .addSuf => p.stem ++ sufText ++ p.ext

/-- One `(src, dst, ctx)` triple appended to `tasks` in `export_all`. -/
structure ExportTask where
  src : SrcPath
  dstDir : ℕ
  dstName : String
  ctx : Ctx
deriving DecidableEq

/-- What `export_all` does before any worker starts. -/
inductive ExportOutcome
  | noImages
  | validationError
  | started (tasks : List ExportTask)
deriving DecidableEq

/-- `MainWindow.export_all` (lines 810-842) up to starting the worker:
abort when no image is imported; abort with a warning when the override
checkbox is unchecked and some source image's parent directory equals
the chosen output directory; otherwise build one task per image, every
task holding a copy of the same `ctx` snapshot. -/
def exportAll (images : List SrcPath) (outDir : ℕ) (allowExportToSrc : Bool)
    (rule : NamingRule) (preText sufText : String) (ctx : Ctx) : ExportOutcome :=
  if images.isEmpty then .noImages
  else if allowExportToSrc = false ∧ images.any (fun p => p.parent == outDir) then
    .validationError
  else
    .started (images.map (fun p => ⟨p, outDir, outputName rule preText sufText p, ctx⟩))

/-- The task list of a `started` outcome ([] otherwise). -/
def tasksOf : ExportOutcome → List ExportTask
  | .started ts => ts
  | _ => []

/-! ### `src/ui/main_window.py` : `ExportWorker.run` -/

/-- The observable events of `ExportWorker.run`: the cancellation-flag
check at the head of each loop iteration, a completed file write, and
the `progress` / `error` / `finished` signals. -/
inductive WorkerEvent
  | cancelCheck
  | write (dst : String)
  | progressSig (v : ℤ)
  | errorSig (e : String)
  | finishedSig
deriving DecidableEq

/-- The loop body of `ExportWorker.run` (lines 43-87): before each task
the `_is_cancelled` flag is checked once (`cancel i` is its value at
the `i`-th check); a task either raises (ending the loop with the
`error` signal) or writes its file in full and emits
`progress = int(i / total * 100)`.  `runTask` abstracts the per-task
decode → composite → save I/O; on success it returns the written
destination. -/
def workerLoop (runTask : ExportTask → Except String String) (cancel : ℕ → Bool)
    (total : ℕ) : ℕ → List ExportTask → List WorkerEvent
  | _, [] => []
  | i, t :: ts =>
    WorkerEvent.cancelCheck ::
      (if cancel i then []
       else
         match runTask t with
         | Except.error e => [WorkerEvent.errorSig e]
         | Except.ok dst =>
             WorkerEvent.write dst ::
               WorkerEvent.progressSig (pyInt (((i : ℚ) + 1) / (total : ℚ) * 100)) ::
                 workerLoop runTask cancel total (i + 1) ts)

/-- `ExportWorker.run` in full: the loop inside `try/except`, and the
`finally:` clause that emits `finished` unconditionally (line 91). -/
def workerRun (runTask : ExportTask → Except String String) (cancel : ℕ → Bool)
    (tasks : List ExportTask) : List WorkerEvent :=
  workerLoop runTask cancel tasks.length 0 tasks ++ [WorkerEvent.finishedSig]

/-- The destination files actually written during a run. -/
def writesOf (events : List WorkerEvent) : List String :=
  events.filterMap (fun e => match e with | .write d => some d | _ => none)

/-- How many times the cancellation flag was consulted. -/
def countChecks (events : List WorkerEvent) : ℕ :=
  events.countP (fun e => e == WorkerEvent.cancelCheck)

/-- The message boxes the user sees: `export_all` connects the `error`
signal to a critical box and the `finished` signal to the completion
box (lines 840-841). -/
inductive UserMessage
  | exportErr (e : String)
  | exportComplete
deriving DecidableEq

/-- The terminal message-box sequence produced by a run's signals. -/
def userMessages (events : List WorkerEvent) : List UserMessage :=
  events.filterMap
    (fun e => match e with
      | .errorSig m => some (UserMessage.exportErr m)
      | .finishedSig => some UserMessage.exportComplete
      | _ => none)

/-- The whole pipeline's written files: nothing unless `export_all`
reaches `started`, then whatever the worker writes. -/
def exportPipelineWrites (images : List SrcPath) (outDir : ℕ) (allowExportToSrc : Bool)
    (rule : NamingRule) (preText sufText : String) (ctx : Ctx)
    (runTask : ExportTask → Except String String) (cancel : ℕ → Bool) : List String :=
  match exportAll images outDir allowExportToSrc rule preText sufText ctx with
  | .started ts => writesOf (workerRun runTask cancel ts)
  | _ => []

/-- The dimensions of the logo raster that actually reaches the
composited output: `ctx['mark_img']` is the already-scaled
`_build_scaled_logo_pil()` result, and `apply_image_watermark` then
resizes it again by `ctx['mark_scale']` (the dimensions do not depend
on the resampling filter). -/
def exportedLogoDims (logoDims : ℕ × ℕ) (scaleSlider : ℕ) : ℕ × ℕ :=
  let built := buildScaledLogoDims logoDims scaleSlider
  let builtImg : Img := { w := built.1, h := built.2, pix := fun _ _ => ⟨0, 0, 0, 255⟩ }
  let scale : ℚ := (scaleSlider : ℚ) / 100
  let m := applyMarkScaled builtImg scale (fun img _ _ => img.pix)
  (m.w, m.h)

/-! ### Percentage conversions (spec §4.2) -/

/-- Modelled from the spec: the repository's coordinate mapper
(`image_to_label` / `label_to_image`) converts directly between image
pixels and preview-label pixels; the percentage-based conversion
`percentToPixel(px,py,W,H) = (round(px*W), round(py*H))` named by the
spec is absent from the source and is modelled from the spec's formula. -/
def percentToPixel (px py : ℚ) (W H : ℕ) : ℤ × ℤ :=
  (round (px * W), round (py * H))

/-- Modelled from the spec: `pixelToPercent(x,y,W,H) = (x/W, y/H)`,
guarded to return `(0,0)` when `W` or `H` is `0`; absent from the
source for the same reason as `percentToPixel`. -/
def pixelToPercent (x y : ℤ) (W H : ℕ) : ℚ × ℚ :=
  if W = 0 ∨ H = 0 then (0, 0) else ((x : ℚ) / W, (y : ℚ) / H)

/-! ### Concrete sample data used by witnesses and counterexamples -/

/-- Widget values for the spec's scenario: text `"SAMPLE"`, opacity
slider at 50, no logo loaded. -/
def sampleSettings : Settings :=
  { text := "SAMPLE", fontSize := 36, opacitySlider := 50, strokeSpin := 0
    rotationText := 0, logoScaleSlider := 100, logoOpacitySlider := 60
    logoRotation := 0, logoDims := none, jpegQualitySlider := 95 }

/-- The snapshot `export_all` takes when the selected image is 800×600
and the overlay has not been moved. -/
def sampleCtx : Ctx :=
  gatherCurrentSettings sampleSettings (some (800, 600)) none 480 320

/-- Fallback task used only as the default of `List.getD`. -/
def dummyTask : ExportTask :=
  { src := { parent := 0, stem := "", ext := "" }, dstDir := 0, dstName := "", ctx := sampleCtx }

/-- Source image sizes for the mixed-resolution scenario: `a.png` is
800×600, everything else 400×400. -/
def sampleDims (p : SrcPath) : ℕ × ℕ :=
  if p.stem = "a" then (800, 600) else (400, 400)

/-- The relative horizontal position (fraction of the source image's
own width) at which a task's text watermark is anchored. -/
def taskTextRelX (dims : SrcPath → ℕ × ℕ) (t : ExportTask) : ℚ :=
  (t.ctx.textPos.1 : ℚ) / ((dims t.src).1 : ℚ)

/-- A per-task processing function for sample runs: every task writes
its destination name. -/
def runTaskOk : ExportTask → Except String String :=
  fun t => Except.ok t.dstName

/-- A per-task processing function whose second file fails to encode. -/
def runTaskFailB : ExportTask → Except String String :=
  fun t => if t.dstName = "b" then Except.error "boom" else Except.ok t.dstName

/-- Source image `a.png` (decoded size 800×600 under `sampleDims`). -/
def srcA : SrcPath := { parent := 0, stem := "a", ext := ".png" }

/-- Source image `b.png` (decoded size 400×400 under `sampleDims`). -/
def srcB : SrcPath := { parent := 0, stem := "b", ext := ".png" }

/-- Concrete task writing `a`. -/
def taskA : ExportTask :=
  { src := { parent := 0, stem := "a", ext := ".png" }, dstDir := 1, dstName := "a", ctx := sampleCtx }

/-- Concrete task writing `b`. -/
def taskB : ExportTask :=
  { src := { parent := 0, stem := "b", ext := ".png" }, dstDir := 1, dstName := "b", ctx := sampleCtx }

/-- Concrete task writing `c`. -/
def taskC : ExportTask :=
  { src := { parent := 0, stem := "c", ext := ".png" }, dstDir := 1, dstName := "c", ctx := sampleCtx }

/-- Three concrete tasks named `a`, `b`, `c`. -/
def sampleTasks : List ExportTask := [taskA, taskB, taskC]

/-- A 1×1 opaque base image with pixel `(10, 20, 30, 255)`. -/
def baseSample : Img := { w := 1, h := 1, pix := fun _ _ => ⟨10, 20, 30, 255⟩ }

/-- A 1×1 fully opaque watermark image with pixel `(1, 2, 3, 255)`. -/
def markSample : Img := { w := 1, h := 1, pix := fun _ _ => ⟨1, 2, 3, 255⟩ }

/-- A 1×1 LA-mode Pillow image (luminance 100, alpha 50). -/
def laSample : PilImage := { mode := .LA, w := 1, h := 1, pix := fun _ _ => ⟨100, 0, 0, 50⟩ }

/-- A 1×1 RGBA-mode Pillow image with a half-transparent pixel. -/
def rgbaSample : PilImage := { mode := .RGBA, w := 1, h := 1, pix := fun _ _ => ⟨100, 50, 0, 51⟩ }

/-! ## Helper lemmas -/

lemma pyInt_of_nonneg (q : ℚ) (h : 0 ≤ q) : pyInt q = ⌊q⌋ := by
  simp [pyInt, h]

lemma textFillAlpha_zero : textFillAlpha 0 = 0 := by
  norm_num [textFillAlpha, pyInt, min_def, max_def]

lemma textFillAlpha_one : textFillAlpha 1 = 255 := by
  norm_num [textFillAlpha, pyInt, min_def, max_def]

lemma alphaOver_transparent (dst src : Pixel) (h : src.a = 0) : alphaOver dst src = dst := by
  obtain ⟨r, g, b, a⟩ := dst
  by_cases ha : a = 0
  · simp [alphaOver, h, ha]
  · have h1 : (a : ℚ) / 255 ≠ 0 := div_ne_zero ha (by norm_num)
    simp only [alphaOver, h]
    norm_num [h1, mul_div_cancel_right₀]
    field_simp

lemma alphaOver_opaque (dst src : Pixel) (h : src.a = 255) : alphaOver dst src = src := by
  obtain ⟨sr, sg, sb, sa⟩ := src
  simp only at h
  subst h
  simp [alphaOver]

/-! ## C2 : pre-flight destination validation -/

/-- C2: for every export request with the override flag unchecked whose
destination directory equals the parent directory of at least one
source image, `export_all` aborts with the validation error before any
task is built or run, and the pipeline writes zero output files. -/
theorem c2_validation_blocks_export (images : List SrcPath) (outDir : ℕ)
    (rule : NamingRule) (preText sufText : String) (ctx : Ctx)
    (runTask : ExportTask → Except String String) (cancel : ℕ → Bool)
    (p : SrcPath) (hp : p ∈ images) (hpar : p.parent = outDir) :
    exportAll images outDir false rule preText sufText ctx = ExportOutcome.validationError ∧
    exportPipelineWrites images outDir false rule preText sufText ctx runTask cancel = [] := by
  have hne : ¬ images.isEmpty = true := by
    rcases images with _ | ⟨q, qs⟩
    · cases hp
    · simp
  have hany : images.any (fun q => q.parent == outDir) = true :=
    List.any_eq_true.mpr ⟨p, hp, by simp [hpar]⟩
  have h1 : exportAll images outDir false rule preText sufText ctx
      = ExportOutcome.validationError := by
    simp [exportAll, hne, hany]
  exact ⟨h1, by simp [exportPipelineWrites, h1]⟩

/-- Witness for C2: one image whose parent directory 3 is chosen as the
output directory, override unchecked. -/
theorem c2_validation_blocks_export_witness :
    exportAll [⟨3, "a", ".png"⟩] 3 false NamingRule.keepOriginal "" "" sampleCtx
        = ExportOutcome.validationError ∧
    exportPipelineWrites [⟨3, "a", ".png"⟩] 3 false NamingRule.keepOriginal "" "" sampleCtx
        runTaskOk (fun _ => false) = [] :=
  c2_validation_blocks_export [⟨3, "a", ".png"⟩] 3 NamingRule.keepOriginal "" "" sampleCtx
    runTaskOk (fun _ => false) ⟨3, "a", ".png"⟩ (by simp) rfl

/-! ## C7 : alpha flattening on JPEG save -/

/-- C7: the claim says the alpha-flattening branch of `save_image`
never raises for any alpha-bearing mode; evaluating the code at an
LA-mode input shows `img.split()[3]` raises `IndexError` (LA images
have only two bands), while for RGBA the flatten succeeds and the saved
file has mode RGB. -/
theorem c7_la_jpeg_split_raises :
    saveImage laSample "JPEG" 95 = Except.error "tuple index out of range" ∧
    (saveImage rgbaSample "JPEG" 95).isOk = true := by
  exact ⟨rfl, rfl⟩

/-! ## C10 : logo scaling on export -/

/-- C10: the claim says the composited logo raster is the original logo
scaled by `logoScalePercent` exactly once; evaluating the code at a
100×100 logo with the scale slider at 50% shows the logo is scaled
twice (once in `_build_scaled_logo_pil` when `ctx['mark_img']` is
built, and again inside `apply_image_watermark` via
`ctx['mark_scale']`), yielding 25×25 instead of 50×50. -/
theorem c10_logo_double_scaled :
    buildScaledLogoDims (100, 100) 50 = (50, 50) ∧
    exportedLogoDims (100, 100) 50 = (25, 25) ∧
    exportedLogoDims (100, 100) 50 ≠ (50, 50) := by
  have h50 : (50 : ℤ).toNat = 50 := by decide
  have h25 : (25 : ℤ).toNat = 25 := by decide
  refine ⟨?_, ?_, ?_⟩ <;>
    norm_num [exportedLogoDims, buildScaledLogoDims, applyMarkScaled, pilResizeDims, pyInt,
      h50, h25]

/-! ## C8 : text fill alpha -/

/-- C8 counterexample: at opacity `1/2` the code applies alpha
`int(255 * 0.5) = 127`, whereas the claim's `round(255 * 0.5) = 128`;
the applied alpha is not the rounded value. -/
theorem c8_truncation_not_rounding :
    ((textLayer (1, 1) (fun _ _ => true) (fun _ _ => false) (255, 255, 255) (1/2) 0
        (0, 0, 0)).pix 0 0).a = ((127 : ℤ) : ℚ) ∧
    round ((255 : ℚ) * max 0 (min 1 (1/2))) = 128 ∧
    ((127 : ℤ) : ℚ) ≠ ((128 : ℤ) : ℚ) := by
  refine ⟨?_, ?_, by norm_num⟩
  · norm_num [textLayer, textFillAlpha, pyInt, min_def, max_def]
  · norm_num [min_def, max_def, round_eq]

/-- C8 (amended): the alpha applied to the rendered text fill equals
`⌊255 * clamp(o, 0, 1)⌋` — the opacity is clamped to `[0,1]` before
use, and the alpha byte is the TRUNCATED (not rounded) value of 255
times the clamped opacity; it always lies in `[0, 255]`. -/
theorem c8_amended_alpha_truncated (size : ℕ × ℕ) (fillR strokeR : ℕ → ℕ → Bool)
    (color strokeFill : ℚ × ℚ × ℚ) (o : ℚ) (sw : ℕ) (x y : ℕ)
    (hf : fillR x y = true) :
    ((textLayer size fillR strokeR color o sw strokeFill).pix x y).a
        = ((⌊255 * max 0 (min 1 o)⌋ : ℤ) : ℚ) ∧
    0 ≤ textFillAlpha o ∧ textFillAlpha o ≤ 255 ∧
    textFillAlpha o = textFillAlpha (max 0 (min 1 o)) := by
  have hcl0 : (0 : ℚ) ≤ max 0 (min 1 o) := le_max_left _ _
  have hcl1 : max 0 (min 1 o) ≤ 1 := max_le (by norm_num) (min_le_left _ _)
  have harg : (0 : ℚ) ≤ 255 * max 0 (min 1 o) := by positivity
  have hfloor : textFillAlpha o = ⌊255 * max 0 (min 1 o)⌋ := by
    simp [textFillAlpha, pyInt_of_nonneg _ harg]
  refine ⟨?_, ?_, ?_, ?_⟩
  · simp [textLayer, hf, textFillAlpha, pyInt_of_nonneg _ harg]
  · rw [hfloor]
    exact Int.floor_nonneg.mpr harg
  · rw [hfloor]
    have h255 : (255 : ℚ) * max 0 (min 1 o) ≤ 255 := by nlinarith
    calc ⌊(255 : ℚ) * max 0 (min 1 o)⌋ ≤ ⌊(255 : ℚ)⌋ := Int.floor_le_floor h255
      _ = 255 := by norm_num
  · have hmm : max 0 (min 1 (max 0 (min 1 o))) = max 0 (min 1 o) := by
      rw [min_eq_right hcl1, max_eq_right hcl0]
    simp [textFillAlpha, hmm]

/-- Witness for C8 (amended) at opacity `3/2` (clamps to 1). -/
theorem c8_amended_alpha_truncated_witness :
    ((textLayer (1, 1) (fun _ _ => true) (fun _ _ => false) (1, 2, 3) (3/2) 0
        (0, 0, 0)).pix 0 0).a = ((⌊(255 : ℚ) * max 0 (min 1 (3/2))⌋ : ℤ) : ℚ) ∧
    0 ≤ textFillAlpha (3/2) ∧ textFillAlpha (3/2) ≤ 255 ∧
    textFillAlpha (3/2) = textFillAlpha (max 0 (min 1 (3/2))) :=
  c8_amended_alpha_truncated (1, 1) (fun _ _ => true) (fun _ _ => false) (1, 2, 3)
    (0, 0, 0) (3/2) 0 0 0 rfl

/-! ## C9 : compositing at opacity extremes -/

/-- C9 counterexample: the text stroke is painted fully opaque
regardless of the opacity parameter, so with a nonzero stroke width,
compositing at opacity 0 changes a base pixel lying in the stroke
region — the base image is not left byte-for-byte unchanged. -/
theorem c9_stroke_breaks_opacity_zero :
    (applyTextWatermark baseSample (fun _ _ => false) (fun _ _ => true) (255, 255, 255) 0 0 1
        (0, 0, 0) (fun l _ => l)).pix 0 0 ≠ baseSample.pix 0 0 := by
  norm_num [applyTextWatermark, textLayer, alphaCompositeImg, alphaOver, baseSample, qmod360]

/-- C9 (amended): with the text stroke disabled (the code paints the
stroke fully opaque regardless of opacity), compositing with opacity 0
leaves every base pixel unchanged, and compositing with opacity 1 and a
fully opaque watermark fully replaces the covered pixels — both for the
text path and for the logo path (logo at scale 1, no rotation). -/
theorem c9_amended_opacity_extremes :
    (∀ (base : Img) (fillR strokeR : ℕ → ℕ → Bool) (color strokeFill : ℚ × ℚ × ℚ)
        (rotFn : Img → ℚ → Img) (x y : ℕ),
      (applyTextWatermark base fillR strokeR color 0 0 0 strokeFill rotFn).pix x y
          = base.pix x y) ∧
    (∀ (base : Img) (fillR strokeR : ℕ → ℕ → Bool) (color strokeFill : ℚ × ℚ × ℚ)
        (sw : ℕ) (rotFn : Img → ℚ → Img) (x y : ℕ), fillR x y = true →
      (applyTextWatermark base fillR strokeR color 1 0 sw strokeFill rotFn).pix x y
          = ⟨color.1, color.2.1, color.2.2, 255⟩) ∧
    (∀ (base mark : Img) (pos : ℤ × ℤ) (rsFn : Img → ℕ → ℕ → ℕ → ℕ → Pixel)
        (rotFn : Img → ℚ → Img) (x y : ℕ),
      (applyImageWatermark base mark pos 1 0 0 rsFn rotFn).pix x y = base.pix x y) ∧
    (∀ (base mark : Img) (pos : ℤ × ℤ) (rsFn : Img → ℕ → ℕ → ℕ → ℕ → Pixel)
        (rotFn : Img → ℚ → Img) (x y : ℕ),
      0 ≤ (x : ℤ) - pos.1 → (x : ℤ) - pos.1 < (mark.w : ℤ) →
      0 ≤ (y : ℤ) - pos.2 → (y : ℤ) - pos.2 < (mark.h : ℤ) →
      (mark.pix ((x : ℤ) - pos.1).toNat ((y : ℤ) - pos.2).toNat).a = 255 →
      (applyImageWatermark base mark pos 1 1 0 rsFn rotFn).pix x y
          = mark.pix ((x : ℤ) - pos.1).toNat ((y : ℤ) - pos.2).toNat) := by
  refine ⟨?_, ?_, ?_, ?_⟩
  · intro base fillR strokeR color strokeFill rotFn x y
    simp only [applyTextWatermark, ne_eq, not_true_eq_false, false_and, if_false,
      alphaCompositeImg]
    apply alphaOver_transparent
    by_cases hf : fillR x y = true
    · simp [textLayer, hf, textFillAlpha_zero]
    · simp [textLayer, hf]
  · intro base fillR strokeR color strokeFill sw rotFn x y hf
    simp only [applyTextWatermark, ne_eq, not_true_eq_false, false_and, if_false,
      alphaCompositeImg]
    have hsrc : (textLayer (base.w, base.h) fillR strokeR color 1 sw strokeFill).pix x y
        = ⟨color.1, color.2.1, color.2.2, 255⟩ := by
      simp [textLayer, hf, textFillAlpha_one]
    rw [hsrc, alphaOver_opaque _ _ rfl]
  · intro base mark pos rsFn rotFn x y
    simp only [applyImageWatermark, applyMarkScaled, ne_eq, not_true_eq_false, false_and,
      if_false, alphaCompositeImg]
    apply alphaOver_transparent
    simp only [pasteWithMask, transparentLayer, enhanceAlpha]
    split
    · split
      · ring_nf
      · rfl
    · rename_i hco
      exact absurd (by norm_num) hco
  · intro base mark pos rsFn rotFn x y h1 h2 h3 h4 hop
    simp only [applyImageWatermark, applyMarkScaled, ne_eq, not_true_eq_false, false_and,
      if_false, alphaCompositeImg]
    have hlt : ¬ ((1 : ℚ) < 1) := by norm_num
    simp only [hlt, if_false]
    have hsrc : (pasteWithMask (transparentLayer base.w base.h) mark pos).pix x y
        = mark.pix ((x : ℤ) - pos.1).toNat ((y : ℤ) - pos.2).toNat := by
      simp only [pasteWithMask, transparentLayer]
      rw [if_pos ⟨h1, h2, h3, h4⟩, hop]
      norm_num
      rw [← hop]
    rw [hsrc, alphaOver_opaque _ _ hop]

/-- Witness for C9 (amended): all four parts at concrete 1×1 images. -/
theorem c9_amended_opacity_extremes_witness :
    (applyTextWatermark baseSample (fun _ _ => false) (fun _ _ => false) (255, 255, 255) 0 0 0
        (0, 0, 0) (fun l _ => l)).pix 0 0 = baseSample.pix 0 0 ∧
    (applyTextWatermark baseSample (fun _ _ => true) (fun _ _ => false) (255, 255, 255) 1 0 0
        (0, 0, 0) (fun l _ => l)).pix 0 0 = ⟨255, 255, 255, 255⟩ ∧
    (applyImageWatermark baseSample markSample (0, 0) 1 0 0 (fun img _ _ => img.pix)
        (fun l _ => l)).pix 0 0 = baseSample.pix 0 0 ∧
    (applyImageWatermark baseSample markSample (0, 0) 1 1 0 (fun img _ _ => img.pix)
        (fun l _ => l)).pix 0 0
      = markSample.pix ((0 : ℤ) - 0).toNat ((0 : ℤ) - 0).toNat := by
  obtain ⟨p1, p2, p3, p4⟩ := c9_amended_opacity_extremes
  refine ⟨p1 baseSample _ _ _ _ _ 0 0, p2 baseSample _ _ _ _ 0 _ 0 0 rfl,
    p3 baseSample markSample (0, 0) _ _ 0 0, ?_⟩
  exact p4 baseSample markSample (0, 0) _ _ 0 0 (by decide) (by decide) (by decide) (by decide) rfl

/-! ## C4 : percentage round trip -/

lemma round_div_close (p : ℚ) (n m : ℕ) (hn : 1 ≤ n) (hm : 1 ≤ m) (hmn : m ≤ n) :
    |(round (p * n) : ℚ) / n - p| ≤ 1 / (m : ℚ) := by
  have hnq : (0 : ℚ) < n := by exact_mod_cast hn
  have hmq : (0 : ℚ) < m := by exact_mod_cast hm
  have hmnq : (m : ℚ) ≤ n := by exact_mod_cast hmn
  have heq : (round (p * n) : ℚ) / n - p = ((round (p * n) : ℚ) - p * n) / n := by
    field_simp
    ring
  have h1 : |(round (p * n) : ℚ) - p * n| ≤ 1 / 2 := by
    rw [abs_sub_comm]
    exact abs_sub_round _
  rw [heq, abs_div, abs_of_pos hnq, div_le_div_iff₀ hnq hmq]
  have h2 : |(round (p * n) : ℚ) - p * n| * m ≤ (1 / 2) * n :=
    mul_le_mul h1 hmnq hmq.le (by norm_num)
  linarith

/-- C4: for all `(px,py) ∈ [0,1]²` and all `(W,H)` with `W,H ≥ 1`, the
round trip percent → pixel → percent through the coordinate-mapper
percentage conversions reproduces the original percentage within
`1/min(W,H)` in each axis. -/
theorem c4_percent_roundtrip (px py : ℚ) (W H : ℕ) (hW : 1 ≤ W) (hH : 1 ≤ H)
    (hpx0 : 0 ≤ px) (hpx1 : px ≤ 1) (hpy0 : 0 ≤ py) (hpy1 : py ≤ 1) :
    |(pixelToPercent (percentToPixel px py W H).1 (percentToPixel px py W H).2 W H).1 - px|
        ≤ 1 / ((min W H : ℕ) : ℚ) ∧
    |(pixelToPercent (percentToPixel px py W H).1 (percentToPixel px py W H).2 W H).2 - py|
        ≤ 1 / ((min W H : ℕ) : ℚ) := by
  have hW0 : W ≠ 0 := by omega
  have hH0 : H ≠ 0 := by omega
  have hmin : 1 ≤ min W H := le_min hW hH
  have hp : pixelToPercent (percentToPixel px py W H).1 (percentToPixel px py W H).2 W H
      = (((round (px * W) : ℤ) : ℚ) / W, ((round (py * H) : ℤ) : ℚ) / H) := by
    simp [pixelToPercent, percentToPixel, hW0, hH0]
  rw [hp]
  constructor
  · simpa using round_div_close px W (min W H) hW hmin (min_le_left _ _)
  · simpa using round_div_close py H (min W H) hH hmin (min_le_right _ _)

/-- Witness for C4 at `(px,py) = (9/10, 9/10)`, `W×H = 800×600`. -/
theorem c4_percent_roundtrip_witness :
    |(pixelToPercent (percentToPixel (9/10) (9/10) 800 600).1
        (percentToPixel (9/10) (9/10) 800 600).2 800 600).1 - 9/10|
      ≤ 1 / ((min 800 600 : ℕ) : ℚ) ∧
    |(pixelToPercent (percentToPixel (9/10) (9/10) 800 600).1
        (percentToPixel (9/10) (9/10) 800 600).2 800 600).2 - 9/10|
      ≤ 1 / ((min 800 600 : ℕ) : ℚ) :=
  c4_percent_roundtrip (9/10) (9/10) 800 600 (by norm_num) (by norm_num)
    (by norm_num) (by norm_num) (by norm_num) (by norm_num)

/-! ## C3 : RB preset flushness -/

lemma floor_roundtrip_bound (w lw : ℕ) (t : ℤ) (ht : 0 ≤ t) (hw : 0 < w) (hlw : 0 < lw) :
    pyInt ((pyInt ((t : ℚ) * ((lw : ℚ) / w)) : ℚ) * ((w : ℚ) / lw)) ≤ t ∧
    (t : ℚ) - (pyInt ((pyInt ((t : ℚ) * ((lw : ℚ) / w)) : ℚ) * ((w : ℚ) / lw)) : ℚ)
        < (w : ℚ) / lw + 1 := by
  have hwq : (0 : ℚ) < w := by exact_mod_cast hw
  have hlwq : (0 : ℚ) < lw := by exact_mod_cast hlw
  have htq : (0 : ℚ) ≤ t := by exact_mod_cast ht
  have hq1n : (0 : ℚ) ≤ (t : ℚ) * ((lw : ℚ) / w) := by positivity
  rw [pyInt_of_nonneg _ hq1n]
  have ha0 : (0 : ℚ) ≤ ((⌊(t : ℚ) * ((lw : ℚ) / w)⌋ : ℤ) : ℚ) := by
    exact_mod_cast Int.floor_nonneg.mpr hq1n
  have hq2n : (0 : ℚ) ≤ ((⌊(t : ℚ) * ((lw : ℚ) / w)⌋ : ℤ) : ℚ) * ((w : ℚ) / lw) := by
    positivity
  rw [pyInt_of_nonneg _ hq2n]
  have hfle : ((⌊(t : ℚ) * ((lw : ℚ) / w)⌋ : ℤ) : ℚ) ≤ (t : ℚ) * ((lw : ℚ) / w) :=
    Int.floor_le _
  have hup : ((⌊(t : ℚ) * ((lw : ℚ) / w)⌋ : ℤ) : ℚ) * ((w : ℚ) / lw) ≤ t := by
    calc ((⌊(t : ℚ) * ((lw : ℚ) / w)⌋ : ℤ) : ℚ) * ((w : ℚ) / lw)
        ≤ ((t : ℚ) * ((lw : ℚ) / w)) * ((w : ℚ) / lw) := by gcongr
      _ = t := by field_simp
  constructor
  · calc ⌊((⌊(t : ℚ) * ((lw : ℚ) / w)⌋ : ℤ) : ℚ) * ((w : ℚ) / lw)⌋
        ≤ ⌊((t : ℤ) : ℚ)⌋ := Int.floor_le_floor hup
      _ = t := Int.floor_intCast t
  · have h3 : (t : ℚ) * ((lw : ℚ) / w) - 1 < ((⌊(t : ℚ) * ((lw : ℚ) / w)⌋ : ℤ) : ℚ) :=
      Int.sub_one_lt_floor _
    have hpos : (0 : ℚ) < (w : ℚ) / lw := by positivity
    have h4 : (t : ℚ) - (w : ℚ) / lw
        < ((⌊(t : ℚ) * ((lw : ℚ) / w)⌋ : ℤ) : ℚ) * ((w : ℚ) / lw) := by
      calc (t : ℚ) - (w : ℚ) / lw
          = ((t : ℚ) * ((lw : ℚ) / w) - 1) * ((w : ℚ) / lw) := by
            field_simp
            try ring
        _ < ((⌊(t : ℚ) * ((lw : ℚ) / w)⌋ : ℤ) : ℚ) * ((w : ℚ) / lw) :=
            mul_lt_mul_of_pos_right h3 hpos
    have h5 : ((⌊(t : ℚ) * ((lw : ℚ) / w)⌋ : ℤ) : ℚ) * ((w : ℚ) / lw) - 1
        < ((⌊((⌊(t : ℚ) * ((lw : ℚ) / w)⌋ : ℤ) : ℚ) * ((w : ℚ) / lw)⌋ : ℤ) : ℚ) :=
      Int.sub_one_lt_floor _
    linarith

/-- C3 counterexample: at a 1000×1000 image with a 100×100 watermark
box and a 333×333 preview label, the RB position actually used at
export places the right edge at x = 997, three pixels short of 1000 —
not within one pixel. -/
theorem c3_rb_not_within_one_pixel :
    (presetExportPos (1, 1) 1000 1000 100 100 333 333).1 + 100 = 997 ∧
    ¬ ((1000 : ℤ) - ((presetExportPos (1, 1) 1000 1000 100 100 333 333).1 + 100) ≤ 1) := by
  have he : presetExportPos (1, 1) 1000 1000 100 100 333 333 = (897, 897) := by
    norm_num [presetExportPos, presetTarget, imageToLabel, labelToImage, pyInt]
  refine ⟨?_, ?_⟩ <;> rw [he] <;> try norm_num

/-- C3 (amended): the preset arithmetic itself places the RB box's
right and bottom edges exactly flush with the image edges in
full-resolution pixel space; but the position the export pipeline
actually uses is that target round-tripped through truncated
preview-label coordinates, so each edge falls short by up to
`W/Lw + 1` (resp. `H/Lh + 1`) pixels rather than one pixel. -/
theorem c3_amended_rb_flush (w h mw mh lw lh : ℕ)
    (hmw : mw ≤ w) (hmh : mh ≤ h) (hw : 0 < w) (hh : 0 < h)
    (hlw : 0 < lw) (hlh : 0 < lh) :
    (presetTarget (1, 1) w h mw mh).1 + mw = w ∧
    (presetTarget (1, 1) w h mw mh).2 + mh = h ∧
    (presetExportPos (1, 1) w h mw mh lw lh).1 + mw ≤ w ∧
    (w : ℚ) - (((presetExportPos (1, 1) w h mw mh lw lh).1 : ℤ) : ℚ) - (mw : ℚ)
        < (w : ℚ) / lw + 1 ∧
    (presetExportPos (1, 1) w h mw mh lw lh).2 + mh ≤ h ∧
    (h : ℚ) - (((presetExportPos (1, 1) w h mw mh lw lh).2 : ℤ) : ℚ) - (mh : ℚ)
        < (h : ℚ) / lh + 1 := by
  have hxe : (presetExportPos (1, 1) w h mw mh lw lh).1
      = pyInt (((pyInt (((w : ℚ) - (mw : ℚ)) * ((lw : ℚ) / (w : ℚ)))) : ℚ)
          * ((w : ℚ) / (lw : ℚ))) := by
    norm_num [presetExportPos, presetTarget, imageToLabel, labelToImage, hw.ne', hh.ne',
      hlw.ne', hlh.ne']
  have hye : (presetExportPos (1, 1) w h mw mh lw lh).2
      = pyInt (((pyInt (((h : ℚ) - (mh : ℚ)) * ((lh : ℚ) / (h : ℚ)))) : ℚ)
          * ((h : ℚ) / (lh : ℚ))) := by
    norm_num [presetExportPos, presetTarget, imageToLabel, labelToImage, hw.ne', hh.ne',
      hlw.ne', hlh.ne']
  have hbx := floor_roundtrip_bound w lw ((w : ℤ) - (mw : ℤ)) (by omega) hw hlw
  have hby := floor_roundtrip_bound h lh ((h : ℤ) - (mh : ℤ)) (by omega) hh hlh
  push_cast at hbx hby
  refine ⟨by norm_num [presetTarget], by norm_num [presetTarget], ?_, ?_, ?_, ?_⟩
  · rw [hxe]
    have h1 := hbx.1
    push_cast at h1 ⊢
    linarith
  · rw [hxe]
    have h2 := hbx.2
    push_cast at h2 ⊢
    linarith
  · rw [hye]
    have h1 := hby.1
    push_cast at h1 ⊢
    linarith
  · rw [hye]
    have h2 := hby.2
    push_cast at h2 ⊢
    linarith

/-- Witness for C3 (amended) at the counterexample's dimensions. -/
theorem c3_amended_rb_flush_witness :
    (presetTarget (1, 1) 1000 1000 100 100).1 + 100 = 1000 ∧
    (presetTarget (1, 1) 1000 1000 100 100).2 + 100 = 1000 ∧
    (presetExportPos (1, 1) 1000 1000 100 100 333 333).1 + 100 ≤ 1000 ∧
    (1000 : ℚ) - (((presetExportPos (1, 1) 1000 1000 100 100 333 333).1 : ℤ) : ℚ) - (100 : ℚ)
        < (1000 : ℚ) / 333 + 1 ∧
    (presetExportPos (1, 1) 1000 1000 100 100 333 333).2 + 100 ≤ 1000 ∧
    (1000 : ℚ) - (((presetExportPos (1, 1) 1000 1000 100 100 333 333).2 : ℤ) : ℚ) - (100 : ℚ)
        < (1000 : ℚ) / 333 + 1 :=
  c3_amended_rb_flush 1000 1000 100 100 333 333 (by norm_num) (by norm_num)
    (by norm_num) (by norm_num) (by norm_num) (by norm_num)

/-! ## C5 : cooperative cancellation -/

lemma exceptOk_exists {t : ExportTask} {runTask : ExportTask → Except String String}
    (h : (runTask t).isOk = true) : ∃ d, runTask t = Except.ok d := by
  cases ht : runTask t with
  | ok d => exact ⟨d, rfl⟩
  | error e => rw [ht] at h; simp [Except.isOk, Except.toBool] at h

lemma workerLoop_writes_cancelAt (runTask : ExportTask → Except String String)
    (total k : ℕ) (ts : List ExportTask) :
    ∀ (i : ℕ), (∀ t ∈ ts, (runTask t).isOk = true) →
      writesOf (workerLoop runTask (fun j => decide (k ≤ j)) total i ts)
        = (ts.take (k - i)).filterMap (fun t => (runTask t).toOption) := by
  induction ts with
  | nil => intro i _; simp [workerLoop, writesOf]
  | cons t ts ih =>
    intro i h
    by_cases hc : k ≤ i
    · have hki : k - i = 0 := by omega
      simp [workerLoop, hc, writesOf, hki]
    · obtain ⟨d, hd⟩ := exceptOk_exists (h t (by simp))
      have hrec := ih (i + 1) (fun u hu => h u (by simp [hu]))
      have hki : k - i = (k - (i + 1)) + 1 := by omega
      rw [hki, List.take_succ_cons]
      simp [workerLoop, hc, hd, writesOf, List.filterMap_cons, Except.toOption] at hrec ⊢
      exact hrec

lemma workerLoop_checks_cancelAt (runTask : ExportTask → Except String String)
    (total k : ℕ) (ts : List ExportTask) :
    ∀ (i : ℕ), (∀ t ∈ ts, (runTask t).isOk = true) →
      countChecks (workerLoop runTask (fun j => decide (k ≤ j)) total i ts)
        = min (k - i + 1) ts.length := by
  induction ts with
  | nil => intro i _; simp [workerLoop, countChecks]
  | cons t ts ih =>
    intro i h
    by_cases hc : k ≤ i
    · have hki : k - i = 0 := by omega
      simp [workerLoop, hc, countChecks, hki]
    · obtain ⟨d, hd⟩ := exceptOk_exists (h t (by simp))
      have hrec := ih (i + 1) (fun u hu => h u (by simp [hu]))
      simp [workerLoop, hc, hd, countChecks] at hrec ⊢
      omega

lemma writes_length_all_ok (runTask : ExportTask → Except String String) :
    ∀ (l : List ExportTask), (∀ t ∈ l, (runTask t).isOk = true) →
      (l.filterMap (fun t => (runTask t).toOption)).length = l.length := by
  intro l
  induction l with
  | nil => intro _; simp
  | cons t ts ih =>
    intro h
    obtain ⟨d, hd⟩ := exceptOk_exists (h t (by simp))
    have ih2 := ih (fun u hu => h u (by simp [hu]))
    simp only [Except.toOption] at ih2
    simp only [List.filterMap_cons, hd, Except.toOption, List.length_cons]
    rw [ih2]

/-- C5: when every task succeeds and cancellation is requested after
task `k` completes (the flag reads true from the `k`-th check on), the
worker writes exactly the first `k` destinations — each written in full
before the next check, so the `(k+1)`-th file is never written even in
part — and the cancellation flag is consulted exactly once before each
started task, `min (k+1) N` checks in total. -/
theorem c5_cooperative_cancellation (runTask : ExportTask → Except String String)
    (tasks : List ExportTask) (k : ℕ) (hk : k ≤ tasks.length)
    (hok : ∀ t ∈ tasks, (runTask t).isOk = true) :
    writesOf (workerRun runTask (fun j => decide (k ≤ j)) tasks)
        = (tasks.take k).filterMap (fun t => (runTask t).toOption) ∧
    (writesOf (workerRun runTask (fun j => decide (k ≤ j)) tasks)).length = k ∧
    countChecks (workerRun runTask (fun j => decide (k ≤ j)) tasks)
        = min (k + 1) tasks.length := by
  have hw := workerLoop_writes_cancelAt runTask tasks.length k tasks 0 hok
  have hc := workerLoop_checks_cancelAt runTask tasks.length k tasks 0 hok
  rw [Nat.sub_zero] at hw hc
  have happ1 : writesOf (workerRun runTask (fun j => decide (k ≤ j)) tasks)
      = writesOf (workerLoop runTask (fun j => decide (k ≤ j)) tasks.length 0 tasks) := by
    simp [workerRun, writesOf]
  have happ2 : countChecks (workerRun runTask (fun j => decide (k ≤ j)) tasks)
      = countChecks (workerLoop runTask (fun j => decide (k ≤ j)) tasks.length 0 tasks) := by
    simp [workerRun, countChecks]
  rw [happ1, happ2, hw, hc]
  refine ⟨rfl, ?_, rfl⟩
  rw [writes_length_all_ok runTask _ (fun t ht => hok t (List.mem_of_mem_take ht))]
  simp [hk]

/-- Witness for C5: three succeeding tasks, cancellation requested
after the second completes — exactly files `a` and `b` are written and
the flag is checked three times. -/
theorem c5_cooperative_cancellation_witness :
    writesOf (workerRun runTaskOk (fun j => decide (2 ≤ j)) sampleTasks)
        = (sampleTasks.take 2).filterMap (fun t => (runTaskOk t).toOption) ∧
    (writesOf (workerRun runTaskOk (fun j => decide (2 ≤ j)) sampleTasks)).length = 2 ∧
    countChecks (workerRun runTaskOk (fun j => decide (2 ≤ j)) sampleTasks)
        = min (2 + 1) sampleTasks.length :=
  c5_cooperative_cancellation runTaskOk sampleTasks 2
    (by norm_num [sampleTasks]) (fun t _ => rfl)

/-! ## C6 : failure propagation and terminal messages -/

lemma workerLoop_error_projections (runTask : ExportTask → Except String String)
    (total : ℕ) (t : ExportTask) (e : String) (post : List ExportTask)
    (ht : runTask t = Except.error e) :
    ∀ (pre : List ExportTask) (i : ℕ), (∀ u ∈ pre, (runTask u).isOk = true) →
      writesOf (workerLoop runTask (fun _ => false) total i (pre ++ t :: post))
          = pre.filterMap (fun u => (runTask u).toOption) ∧
      userMessages (workerLoop runTask (fun _ => false) total i (pre ++ t :: post))
          = [UserMessage.exportErr e] := by
  intro pre
  induction pre with
  | nil => intro i _; simp [workerLoop, ht, writesOf, userMessages]
  | cons u pre ih =>
    intro i h
    obtain ⟨d, hd⟩ := exceptOk_exists (h u (by simp))
    have hrec := ih (i + 1) (fun v hv => h v (by simp [hv]))
    simp [workerLoop, hd, writesOf, userMessages, List.filterMap_cons, Except.toOption]
      at hrec ⊢
    exact hrec

/-- C6 (amended): the first exception raised while processing a task
aborts all remaining tasks (only the files of the preceding tasks are
written and left in place) and the worker emits the first error
message; but the `finally:` clause emits `finished` unconditionally, so
on failure the user receives BOTH the error message and the completion
message, not exactly one terminal message. -/
theorem c6_amended_error_aborts_but_both_messages
    (runTask : ExportTask → Except String String) (pre post : List ExportTask)
    (t : ExportTask) (e : String)
    (hpre : ∀ u ∈ pre, (runTask u).isOk = true) (ht : runTask t = Except.error e) :
    writesOf (workerRun runTask (fun _ => false) (pre ++ t :: post))
        = pre.filterMap (fun u => (runTask u).toOption) ∧
    userMessages (workerRun runTask (fun _ => false) (pre ++ t :: post))
        = [UserMessage.exportErr e, UserMessage.exportComplete] := by
  have h := workerLoop_error_projections runTask (pre ++ t :: post).length t e post ht pre 0 hpre
  constructor
  · have hw : writesOf (workerRun runTask (fun _ => false) (pre ++ t :: post))
        = writesOf (workerLoop runTask (fun _ => false) (pre ++ t :: post).length 0
            (pre ++ t :: post)) := by
      simp [workerRun, writesOf]
    rw [hw, h.1]
  · have hm : userMessages (workerRun runTask (fun _ => false) (pre ++ t :: post))
        = userMessages (workerLoop runTask (fun _ => false) (pre ++ t :: post).length 0
            (pre ++ t :: post)) ++ [UserMessage.exportComplete] := by
      simp [workerRun, userMessages]
    rw [hm, h.2]
    rfl

/-- Witness for C6 (amended): second of three tasks raises `boom`. -/
theorem c6_amended_error_aborts_but_both_messages_witness :
    writesOf (workerRun runTaskFailB (fun _ => false) ([taskA] ++ taskB :: [taskC]))
        = [taskA].filterMap (fun u => (runTaskFailB u).toOption) ∧
    userMessages (workerRun runTaskFailB (fun _ => false) ([taskA] ++ taskB :: [taskC]))
        = [UserMessage.exportErr "boom", UserMessage.exportComplete] :=
  c6_amended_error_aborts_but_both_messages runTaskFailB [taskA] [taskC] taskB "boom"
    (by intro u hu; simp at hu; subst hu; rfl)
    (by simp [taskB, runTaskFailB])

/-- C6 counterexample: with three concrete tasks whose second fails to
encode, the batch aborts after the first file, yet the user is shown
BOTH the error box and the completion box — the claim's "exactly one
terminal message, never both" is false on the code. -/
theorem c6_error_and_completion_both_shown :
    userMessages (workerRun runTaskFailB (fun _ => false) sampleTasks)
        = [UserMessage.exportErr "boom", UserMessage.exportComplete] ∧
    writesOf (workerRun runTaskFailB (fun _ => false) sampleTasks) = ["a"] ∧
    (userMessages (workerRun runTaskFailB (fun _ => false) sampleTasks)).length ≠ 1 := by
  refine ⟨?_, ?_, ?_⟩ <;>
    simp [workerRun, workerLoop, userMessages, writesOf, sampleTasks, runTaskFailB,
      taskA, taskB, taskC]

/-! ## C1 : per-task configuration and position resolution -/

/-- C1 counterexample: exporting two images whose decoded sizes are
800×600 and 400×400 with the snapshot taken from the selected 800×600
image gives every task the same absolute text position (780, 580); the
relative position with respect to each image's own width is 39/40 for
the first output but 39/20 for the second, so the watermark is NOT at
the same relative location resolved against each source image's own
resolution. -/
theorem c1_positions_shared_absolute_not_relative :
    ((tasksOf (exportAll [srcA, srcB] 9 true NamingRule.keepOriginal "" "" sampleCtx)).getD 0
        dummyTask).ctx.textPos = (780, 580) ∧
    ((tasksOf (exportAll [srcA, srcB] 9 true NamingRule.keepOriginal "" "" sampleCtx)).getD 1
        dummyTask).ctx.textPos = (780, 580) ∧
    taskTextRelX sampleDims
        ((tasksOf (exportAll [srcA, srcB] 9 true NamingRule.keepOriginal "" "" sampleCtx)).getD 0
          dummyTask)
      ≠ taskTextRelX sampleDims
        ((tasksOf (exportAll [srcA, srcB] 9 true NamingRule.keepOriginal "" "" sampleCtx)).getD 1
          dummyTask) := by
  refine ⟨?_, ?_, ?_⟩ <;>
    norm_num [exportAll, tasksOf, srcA, srcB, sampleCtx, gatherCurrentSettings,
      sampleSettings, buildScaledLogoDims, taskTextRelX, sampleDims, outputName, srcName,
      dummyTask, show ("b" : String) ≠ "a" from by simp]

/-- C1 (amended): `export_all` snapshots the currently selected image's
settings once and hands every task a copy of that single snapshot, so
each task's watermark position is the same absolute pixel coordinate —
computed against the currently selected image's resolution — rather
than a position resolved against that task's own source resolution. -/
theorem c1_amended_single_snapshot (s : Settings) (currentPil : Option (ℕ × ℕ))
    (ov : Option (ℤ × ℤ)) (lw lh : ℕ) (images : List SrcPath) (outDir : ℕ)
    (allow : Bool) (rule : NamingRule) (preText sufText : String)
    (t₁ t₂ : ExportTask)
    (h₁ : t₁ ∈ tasksOf (exportAll images outDir allow rule preText sufText
        (gatherCurrentSettings s currentPil ov lw lh)))
    (h₂ : t₂ ∈ tasksOf (exportAll images outDir allow rule preText sufText
        (gatherCurrentSettings s currentPil ov lw lh))) :
    t₁.ctx = gatherCurrentSettings s currentPil ov lw lh ∧
    t₁.ctx.textPos = t₂.ctx.textPos ∧ t₁.ctx.markPos = t₂.ctx.markPos := by
  have key : ∀ u ∈ tasksOf (exportAll images outDir allow rule preText sufText
      (gatherCurrentSettings s currentPil ov lw lh)),
      u.ctx = gatherCurrentSettings s currentPil ov lw lh := by
    intro u hu
    simp only [exportAll] at hu
    split at hu
    · simp [tasksOf] at hu
    · split at hu
      · simp [tasksOf] at hu
      · simp only [tasksOf] at hu
        obtain ⟨p, hp, rfl⟩ := List.mem_map.mp hu
        rfl
  exact ⟨key t₁ h₁, by rw [key t₁ h₁, key t₂ h₂], by rw [key t₁ h₁, key t₂ h₂]⟩

/-- Witness for C1 (amended) at the two-image batch. -/
theorem c1_amended_single_snapshot_witness :
    (⟨srcA, 9, outputName NamingRule.keepOriginal "" "" srcA, sampleCtx⟩ : ExportTask).ctx
        = gatherCurrentSettings sampleSettings (some (800, 600)) none 480 320 ∧
    (⟨srcA, 9, outputName NamingRule.keepOriginal "" "" srcA, sampleCtx⟩ : ExportTask).ctx.textPos
        = (⟨srcB, 9, outputName NamingRule.keepOriginal "" "" srcB, sampleCtx⟩
            : ExportTask).ctx.textPos ∧
    (⟨srcA, 9, outputName NamingRule.keepOriginal "" "" srcA, sampleCtx⟩ : ExportTask).ctx.markPos
        = (⟨srcB, 9, outputName NamingRule.keepOriginal "" "" srcB, sampleCtx⟩
            : ExportTask).ctx.markPos := by
  have hE : exportAll [srcA, srcB] 9 true NamingRule.keepOriginal "" ""
      (gatherCurrentSettings sampleSettings (some (800, 600)) none 480 320)
      = ExportOutcome.started
          [⟨srcA, 9, outputName NamingRule.keepOriginal "" "" srcA, sampleCtx⟩,
           ⟨srcB, 9, outputName NamingRule.keepOriginal "" "" srcB, sampleCtx⟩] := by
    simp [exportAll, sampleCtx]
  exact c1_amended_single_snapshot sampleSettings (some (800, 600)) none 480 320
    [srcA, srcB] 9 true NamingRule.keepOriginal "" ""
    ⟨srcA, 9, outputName NamingRule.keepOriginal "" "" srcA, sampleCtx⟩
    ⟨srcB, 9, outputName NamingRule.keepOriginal "" "" srcB, sampleCtx⟩
    (by rw [hE]; simp [tasksOf]) (by rw [hE]; simp [tasksOf])
